import Mathlib

/-!
Verification development for the tenders-aggregator repository.

The Python sources are shallowly embedded as executable Lean definitions:

* `src/collectors/utils.py`       → `parse_date_any`, `in_date_range`,
  `normalize_cpv_list`, `cpv_match`, `extract_cpvs_from_text`, `norm_spaces`
* `src/collectors/rss_generic.py` → `extract_amount_by_labels`,
  `parse_detail_madrid`, `parse_detail_galicia`, `PARSERS_BY_DOMAIN`,
  `selectParser`, `enrich_by_detail`, `processEntry`, `collectRSS`
* `src/collectors/placsp643.py`   → `placspTargets`, `placspEntryStep`,
  `placspGo`, `placsp_collect`
* `src/run_daily.py`              → `dedupRows`, `pipeline`

Modelling conventions:
* Python `str` is Lean `String`; character classes (`str.isdigit`, `\d`, `\w`,
  `\s`) are modelled over their ASCII meaning, which covers every string the
  program manipulates (CPV codes, ISO dates, URLs, labels).
* `datetime` values are modelled as `Int` instants; the external `dateutil`
  parser and `isoformat` renderer are oracles carried in an `Env` record.
* Library regex searches other than the CPV patterns (case-id, authority and
  amount patterns) are deterministic oracles in `Env`; the two CPV regexes,
  which the claims are about, are implemented faithfully.
* lxml documents are `Doc` records whose fields are the results of the
  syntactically valid XPath queries the source issues;
  `requests.get`+`html.fromstring` is an `Env.fetch` oracle returning
  `Except` (an exception) or an optional document.  The source's two
  one-argument `contains()` XPath expressions are invalid XPath 1.0, on
  which lxml raises `XPathEvalError` for every document: they are modelled
  as always-raising queries (`amountLabelQuery`, `galiciaCpvCellsQuery`),
  making the detail parsers fallible (`Except`), as the real ones are.
* A Python `set` iterated into a `list` has no specified order; the iteration
  order is an explicit oracle `Env.setOrder`, constrained by `ValidOrder`
  (it must permute the distinct elements).  Places where the source sorts the
  set (`sorted(set(...))`) are order-independent and modelled canonically.
-/

set_option maxRecDepth 8000

/-! ## Basic string helpers (ASCII models of Python primitives) -/

/-- ASCII whitespace recognised by Python's `str.strip` / `\s` on the data in
this program (the NBSP family is mapped to a plain space beforehand, mirroring
`NBSP_RE`). -/
def pySpace (c : Char) : Bool :=
  c == ' ' || c == '\t' || c == '\n' || c == '\r' || c == '\x0b' || c == '\x0c'

/-- Python `str.strip()`. -/
def pyStrip (s : String) : String :=
  ⟨((s.data.dropWhile pySpace).reverse.dropWhile pySpace).reverse⟩

/-- Python `str.isdigit()` (ASCII model): non-empty and all decimal digits. -/
def isdigitS (s : String) : Bool :=
  !s.data.isEmpty && s.data.all Char.isDigit

/-- Python `str.zfill(8)`: left-pad with `'0'` up to width 8.  (The sign
handling of `zfill` is irrelevant here because the call sites guard with
`isdigit`.)  Note `zfill` never truncates: longer strings pass unchanged. -/
def zfill8 (s : String) : String :=
  if 8 ≤ s.length then s else ⟨List.replicate (8 - s.length) '0' ++ s.data⟩

/-- `pre` is a prefix of `l` (Python `startswith` on char lists). -/
def strStarts : List Char → List Char → Bool
  | [], _ => true
  | _ :: _, [] => false
  | p :: ps, c :: cs => p == c && strStarts ps cs

/-- Python `s.startswith(t)`. -/
def pyStartswith (s t : String) : Bool := strStarts t.data s.data

/-- `needle` occurs somewhere in `hay` (substring containment). -/
def strHas : List Char → List Char → Bool
  | n, [] => n.isEmpty
  | n, c :: cs => strStarts n (c :: cs) || strHas n cs

/-- Python `needle in hay` for strings: substring containment. -/
def strIn (needle hay : String) : Bool := strHas needle.data hay.data

/-- Python `s.endswith(t)`. -/
def strEnds (s t : String) : Bool := strStarts t.data.reverse s.data.reverse

/-- Python `s.lower()` (ASCII model, matching the ASCII registry domains and
member names it is applied to). -/
def pyLower (s : String) : String := ⟨s.data.map Char.toLower⟩

/-- First-occurrence deduplication worker (model of building a Python `set`:
the set's *contents*; iteration order is supplied separately). -/
def dedupFirstGo (seen : List String) : List String → List String
  | [] => []
  | x :: xs =>
    if x ∈ seen then dedupFirstGo seen xs else x :: dedupFirstGo (x :: seen) xs

/-- Distinct elements of `l`, first occurrences kept, in scan order. -/
def dedupFirst (l : List String) : List String := dedupFirstGo [] l

/-- Lexicographic comparison by code point (Python `str` ordering). -/
def charListLt : List Char → List Char → Bool
  | [], [] => false
  | [], _ :: _ => true
  | _ :: _, [] => false
  | a :: as, b :: bs =>
    if a.toNat < b.toNat then true
    else if b.toNat < a.toNat then false
    else charListLt as bs

/-- Python `a < b` on strings. -/
def strLt (a b : String) : Bool := charListLt a.data b.data

/-- Insertion step of the sort used to model Python `sorted` on strings. -/
def ordInsertStr (x : String) : List String → List String
  | [] => [x]
  | y :: ys => if strLt x y then x :: y :: ys else y :: ordInsertStr x ys

/-- Python `sorted(...)` on a list of strings (lexicographic, ascending). -/
def sortStr (l : List String) : List String := l.foldr ordInsertStr []

/-- Python `";".join(l)`. -/
def joinSemi (l : List String) : String := String.intercalate ";" l

/-- Python `s.split(";")` worker. -/
def splitSemiGo (cur : List Char) : List Char → List String
  | [] => [⟨cur.reverse⟩]
  | c :: rest =>
    if c == ';' then ⟨cur.reverse⟩ :: splitSemiGo [] rest
    else splitSemiGo (c :: cur) rest

/-- Python `s.split(";")`. -/
def splitSemi (s : String) : List String := splitSemiGo [] s.data

/-- Map the odd space characters of `NBSP_RE` (` `, ` `, ` `)
to a plain space, as `NBSP_RE.sub(" ", s)` does. -/
def nbspFix (c : Char) : Char :=
  if c == ' ' || c == ' ' || c == ' ' then ' ' else c

/-- Collapse every run of whitespace to a single `' '`
(`re.sub(r"\s+", " ", s)`). -/
def collapseWsGo (prevSpace : Bool) : List Char → List Char
  | [] => []
  | c :: rest =>
    if pySpace c then
      if prevSpace then collapseWsGo true rest else ' ' :: collapseWsGo true rest
    else c :: collapseWsGo false rest

/-- `norm_spaces` from `src/collectors/utils.py`: normalize NBSP-style spaces,
collapse whitespace runs, strip.  (`if not s: return s` kept for fidelity.) -/
def norm_spaces (s : String) : String :=
  if s == "" then s
  else pyStrip ⟨collapseWsGo false (s.data.map nbspFix)⟩

/-! ## CPV regexes, implemented faithfully

`CPV_RE = \b(\d{8})(?:-\d)?\b` scanned with `finditer` (left to right,
non-overlapping), and the Galicia cell regex `(\d{8})(?:-\d)?` used with
`re.search`. -/

/-- `\w` (ASCII model): letters, digits, underscore. -/
def isWordChar (c : Char) : Bool := c.isAlphanum || c == '_'

/-- Try to match `\b(\d{8})(?:-\d)?\b` at the head of `l`, where `prevW` says
whether the character before `l` is a word character (for the left `\b`).
Returns the captured 8 digits and the number of characters consumed.
Backtracking of the optional `(?:-\d)?` against the right `\b` is played out
exactly as the regex engine does. -/
def cpvHere (prevW : Bool) (l : List Char) : Option (String × Nat) :=
  if prevW then none
  else
    match l with
    | d1 :: d2 :: d3 :: d4 :: d5 :: d6 :: d7 :: d8 :: rest =>
      if d1.isDigit && d2.isDigit && d3.isDigit && d4.isDigit &&
         d5.isDigit && d6.isDigit && d7.isDigit && d8.isDigit then
        let code : String := ⟨[d1, d2, d3, d4, d5, d6, d7, d8]⟩
        match rest with
        | '-' :: d9 :: rest2 =>
          if d9.isDigit then
            match rest2 with
            | [] => some (code, 10)
            | c :: _ =>
              if !isWordChar c then some (code, 10)
              else some (code, 8)   -- backtrack: `-` is a non-word boundary
          else some (code, 8)       -- optional part fails; `-` gives the boundary
        | [] => some (code, 8)
        | c :: _ => if !isWordChar c then some (code, 8) else none
      else none
    | _ => none

/-- Left-to-right non-overlapping scan of `CPV_RE` (`re.finditer`). -/
def scanCpvAux : Nat → Bool → List Char → List String
  | 0, _, _ => []
  | _ + 1, _, [] => []
  | fuel + 1, prevW, c :: rest =>
    match cpvHere prevW (c :: rest) with
    | some (code, n) => code :: scanCpvAux fuel true ((c :: rest).drop n)
    | none => scanCpvAux fuel (isWordChar c) rest

/-- All `CPV_RE` captures in `text`, in scan order, duplicates included. -/
def cpvMatchesIn (text : String) : List String :=
  scanCpvAux text.data.length false text.data

/-- `re.search(r"(\d{8})(?:-\d)?", s)` helper: 8 digits at the very start. -/
def take8Digits (l : List Char) : Option String :=
  let t := l.take 8
  if t.length == 8 && t.all Char.isDigit then some ⟨t⟩ else none

/-- First run of 8 consecutive digits in `l` (group 1 of the Galicia cell
regex, which has no word-boundary anchors). -/
def firstRun8 : List Char → Option String
  | [] => none
  | c :: rest =>
    match take8Digits (c :: rest) with
    | some code => some code
    | none => firstRun8 rest

/-! ## `src/collectors/utils.py` -/

/-- `normalize_cpv_list(codes, mode)`.  The returned Python `set` is modelled
as its list of distinct elements (first occurrences); every consumer is
order-insensitive (membership tests and re-normalization). -/
def normalize_cpv_list (codes : List String) (mode : String) : List String :=
  dedupFirst (codes.filterMap fun c0 =>
    let c := pyStrip c0
    if c = "" then none
    else if mode = "exact" then
      if isdigitS c then some (zfill8 c) else none
    else
      if isdigitS c && decide (2 ≤ c.length) && decide (c.length ≤ 8) then some c
      else none)

/-- `cpv_match(values, targets, mode)`.  `set(values or [])` is `dedupFirst`;
`bool(vals & targets)` and the nested `startswith` loops are `any` tests. -/
def cpv_match (values : List String) (targets : List String) (mode : String) : Bool :=
  if targets.isEmpty then true
  else
    let vals := dedupFirst values
    if vals.isEmpty then false
    else if mode = "exact" then vals.any fun v => decide (v ∈ targets)
    else vals.any fun v => targets.any fun t => pyStartswith v t

/-- `extract_cpvs_from_text(text)` = `list({m.group(1) for m in finditer})`.
Building the set keeps the distinct codes; turning it into a `list` iterates
in an order Python does not specify, supplied here as `setOrder`. -/
def extract_cpvs_from_text (setOrder : List String → List String)
    (text : String) : List String :=
  if text == "" then []
  else setOrder (dedupFirst (cpvMatchesIn text))

/-- A possible Python set iteration order: it enumerates exactly the set's
elements, i.e. permutes any duplicate-free list it is given. -/
def ValidOrder (f : List String → List String) : Prop :=
  ∀ l : List String, (f l).Perm l

/-- The identity enumeration order. -/
def ordId : List String → List String := fun l => l

/-- The reversed enumeration order (as arises under another hash seed). -/
def ordRev : List String → List String := List.reverse

/-! ## `src/collectors/rss_generic.py` — detail documents and environment -/

/-- An lxml document, modelled as the results of the *valid* XPath queries
the source issues against it: `doc.xpath(...)` with a `string(...)` wrapper
is a pure query, so each such query family becomes a field.  The two
syntactically *invalid* XPath expressions in the source (one-argument
`contains()`, see `amountLabelQuery` and `galiciaCpvCellsQuery`) are not
fields: evaluating them raises for every document. -/
structure Doc where
  /-- `string(//h1|//h2)`. -/
  heading : String
  /-- `doc.text_content() or ""`. -/
  textContent : String
  /-- `string(//*[contains(translate(text(),L,L),L)]/following::*[1])` for a
  given authority label `L` (the `organo` loops of both detail parsers;
  this `contains()` has its two arguments). -/
  organoFollowing : String → String

/-- Environment of deterministic external collaborators: the `dateutil`
parser, `datetime.isoformat`, the three non-CPV regex searches, `urlparse`
hostname extraction, the network fetch, and the Python set iteration order. -/
structure Env where
  /-- `dateutil.parser.parse` (raises → `none`, per `parse_date_any`). -/
  pd : String → Option Int
  /-- `datetime.isoformat()`. -/
  iso : Int → String
  /-- `re.search(r"\b[\w\-]+/\d{4}/\d+\b", t)`, returning `group(0)`. -/
  searchExpediente : String → Option String
  /-- `re.search(tag + r".{0,3}:\s*(.+?)(?:<|$|\n)", summary, re.IGNORECASE)`,
  returning `group(1)` for a given `tag`. -/
  searchOrgano : String → String → Option String
  /-- `re.search(r"[\d\.\s]+,\d{2}\s*€", t)`, returning `group(0)`. -/
  searchImporte : String → Option String
  /-- `urlparse(url).hostname or ""`. -/
  hostname : String → String
  /-- `_get(url)`: `requests.get(...)` + `html.fromstring`.  `Except.error`
  models a raised exception, `Except.ok` the returned document (the source
  also guards `if doc is None`). -/
  fetch : String → Except Unit (Option Doc)
  /-- Python set iteration order (hash-seed dependent), see `ValidOrder`. -/
  setOrder : List String → List String

/-- The `out` dict built by a detail parser: a key is `none` when the parser
never assigned it (so `extra.get(k, default)` falls back). -/
structure Extra where
  expediente : Option String
  organo : Option String
  importe : Option String
  importe_source : Option String
  objeto : Option String
  cpv : Option String
  cpv_source : Option String
  detail_status : Option String
deriving DecidableEq

/-- The empty detail dict `{}`. -/
def Extra.empty : Extra :=
  ⟨none, none, none, none, none, none, none, none⟩

/-- One output record (the row dicts of both collectors; the three diagnostic
keys are absent from PLACSP rows, rendered here as `""`, which is also what
`r.get(c, "")` yields on output). -/
structure Row where
  fuente : String
  expediente : String
  objeto : String
  organo : String
  estado : String
  importe : String
  cpv : String
  fecha_published : String
  fecha_updated : String
  enlace : String
  cpv_source : String
  importe_source : String
  detail_status : String
deriving DecidableEq

/-- `parse_date_any(s)` over an optional attribute (`getattr(e, ..., None)`
can hand it `None`; `if not s` also rejects `""`). -/
def parse_date_any (env : Env) (s : Option String) : Option Int :=
  match s with
  | none => none
  | some str => if str == "" then none else env.pd str

/-- `in_date_range(dt_val, start, end)`. -/
def in_date_range (d : Option Int) (start stop : Int) : Bool :=
  match d with
  | none => false
  | some v => decide (start ≤ v) && decide (v ≤ stop)

/-! ### Detail parsers

Raised exceptions inside the `try` of `enrich_by_detail` are modelled by
`Except Unit`: a fallible step propagates its error to the enclosing
handler, exactly as an uncaught Python exception does. -/

/-- `doc.xpath(f"string(//*[contains(translate(normalize-space(text()),'{L}','{L}'))]/following::*[1])")`
— the amount-label query of `_extract_amount_by_labels`
(`rss_generic.py:40-41`).  The expression applies XPath 1.0 `contains()` to
a *single* argument; `contains()` takes exactly two, libxml2 rejects the
arity, and lxml raises `XPathEvalError` at evaluation — for every document
and every label (compare line 61 of the same file, where the two-argument
form is written).  The raise is this query's only behavior. -/
def amountLabelQuery (_doc : Doc) (_label : String) : Except Unit String :=
  Except.error ()

/-- The Galicia CPV-table query (`rss_generic.py:92-99`): the second branch
of the `|` union applies `contains()` to one argument
(`contains(translate(normalize-space(.),'VOCABULARIO COMÚN','VOCABULARIO COMÚN') )`),
so the whole expression is invalid XPath 1.0 and lxml raises
`XPathEvalError` for every document. -/
def galiciaCpvCellsQuery (_doc : Doc) : Except Unit (List String) :=
  Except.error ()

/-- The label list of `_extract_amount_by_labels` (Galician then Spanish;
the duplicate entry is in the source). -/
def amountLabels : List String :=
  ["Orzamento base de licitación", "Orzamento", "Importe de licitación",
   "Presupuesto base de licitación", "Importe de licitación", "Presupuesto"]

/-- The label loop of `_extract_amount_by_labels`: evaluate the (invalid)
label query — whose raise propagates — then take the first label whose
following-node text is non-empty and contains `€`. -/
def amountLabelLoop (doc : Doc) : List String → Except Unit (Option (String × String))
  | [] => Except.ok none
  | label :: rest =>
    match amountLabelQuery doc label with
    | Except.error e => Except.error e
    | Except.ok raw =>
      let val := norm_spaces raw
      if val != "" && strIn "€" val then Except.ok (some (val, "label:" ++ label))
      else amountLabelLoop doc rest

/-- `_extract_amount_by_labels(doc)`: label search, then the first-euro regex
over the page text, else `("", "")`.  Fallible: the label query raises. -/
def extract_amount_by_labels (env : Env) (doc : Doc) :
    Except Unit (String × String) :=
  match amountLabelLoop doc amountLabels with
  | Except.error e => Except.error e
  | Except.ok (some p) => Except.ok p
  | Except.ok none =>
    let txt := norm_spaces doc.textContent
    match env.searchImporte txt with
    | some m => Except.ok (norm_spaces m, "fallback:first-euro")
    | none => Except.ok ("", "")

/-- First non-empty authority value over a label vocabulary (the
`for label in [...]` / `if val: ...; break` loops of the detail parsers). -/
def organoLabelLoop (doc : Doc) : List String → Option String
  | [] => none
  | label :: rest =>
    let val := norm_spaces (doc.organoFollowing label)
    if val != "" then some val else organoLabelLoop doc rest

/-- CPV serialization used by the detail parsers and the merge:
`";".join(sorted(set(cpvs)))` — canonical, hence order-oracle-free. -/
def joinSortedSet (cpvs : List String) : String :=
  joinSemi (sortStr (dedupFirst cpvs))

/-- `parse_detail_madrid(doc)`.  Keys `objeto`, `importe`, `importe_source`
would be assigned unconditionally and `expediente`, `organo`, `cpv` only
when found — but the call to `_extract_amount_by_labels` raises before the
dict is completed, so the function never returns normally on a real
document. -/
def parse_detail_madrid (env : Env) (doc : Doc) : Except Unit Extra :=
  let objeto := norm_spaces doc.heading
  let txt := norm_spaces doc.textContent
  let expediente := env.searchExpediente txt
  let organo := organoLabelLoop doc
    ["Órgano de contratación", "Entidad adjudicadora", "Organismo"]
  match extract_amount_by_labels env doc with
  | Except.error e => Except.error e
  | Except.ok impSrc =>
    let cpvs := extract_cpvs_from_text env.setOrder txt
    Except.ok
      { expediente := expediente
        organo := organo
        importe := some impSrc.1
        importe_source := some impSrc.2
        objeto := some objeto
        cpv := if cpvs.isEmpty then none else some (joinSortedSet cpvs)
        cpv_source := if cpvs.isEmpty then none else some "detail"
        detail_status := none }

/-- `parse_detail_galicia(doc)`: like Madrid plus the CPV table scan
(`cpv_set`), with the whole-page regex as fallback when the table yields
nothing.  Both the amount-label query and the CPV-table query are invalid
XPath, so the function raises (at the amount query first). -/
def parse_detail_galicia (env : Env) (doc : Doc) : Except Unit Extra :=
  let objeto := norm_spaces doc.heading
  let txt := norm_spaces doc.textContent
  let expediente := env.searchExpediente txt
  let organo := organoLabelLoop doc
    ["Órgano de contratación", "Organismo", "Órgano"]
  match extract_amount_by_labels env doc with
  | Except.error e => Except.error e
  | Except.ok impSrc =>
    match galiciaCpvCellsQuery doc with
    | Except.error e => Except.error e
    | Except.ok cells =>
      let tableCodes :=
        dedupFirst (cells.filterMap fun td => firstRun8 (norm_spaces td).data)
      let cpvSet :=
        if tableCodes.isEmpty then dedupFirst (cpvMatchesIn txt) else tableCodes
      Except.ok
        { expediente := expediente
          organo := organo
          importe := some impSrc.1
          importe_source := some impSrc.2
          objeto := some objeto
          cpv := if cpvSet.isEmpty then none else some (joinSemi (sortStr cpvSet))
          cpv_source := if cpvSet.isEmpty then none else some "detail"
          detail_status := none }

/-- Identifier of a registered detail parser. -/
inductive ParserId where
  | madrid
  | galicia
deriving DecidableEq

/-- `PARSERS_BY_DOMAIN`, in dict insertion order. -/
def PARSERS_BY_DOMAIN : List (String × ParserId) :=
  [("contratos-publicos.comunidad.madrid", ParserId.madrid),
   ("www.contratosdegalicia.gal", ParserId.galicia),
   ("contratosdegalicia.gal", ParserId.galicia)]

/-- Run a registered parser (fallible — a raise propagates to the caller). -/
def applyParser (env : Env) (doc : Doc) : ParserId → Except Unit Extra
  | ParserId.madrid => parse_detail_madrid env doc
  | ParserId.galicia => parse_detail_galicia env doc

/-- The dispatch loop of `enrich_by_detail`:
`for dom, f in PARSERS_BY_DOMAIN.items(): if dom in host: fn = f; break`.
Note `dom in host` is Python *substring* containment. -/
def selectParser (host : String) : Option ParserId :=
  (PARSERS_BY_DOMAIN.find? fun p => strIn p.1 host).map Prod.snd

/-- The `try` body of `enrich_by_detail(url)`: fetch (may raise), the
`doc is None` guard (`fetch-failed`), registry dispatch tagging `parsed`,
else the inline generic fallback tagging `fallback`.  Every fallible step's
raise propagates — for a successfully fetched document, the parsers and the
generic fallback all raise in `_extract_amount_by_labels`. -/
def enrich_try_body (env : Env) (url : String) : Except Unit Extra :=
  match env.fetch url with
  | Except.error e => Except.error e
  | Except.ok none =>
    Except.ok { Extra.empty with detail_status := some "fetch-failed" }
  | Except.ok (some doc) =>
    let host := pyLower (env.hostname url)
    match selectParser host with
    | some pid =>
      match applyParser env doc pid with
      | Except.error e => Except.error e
      | Except.ok out => Except.ok { out with detail_status := some "parsed" }
    | none =>
      let objeto := norm_spaces doc.heading
      let txt := norm_spaces doc.textContent
      let expediente := env.searchExpediente txt
      match extract_amount_by_labels env doc with
      | Except.error e => Except.error e
      | Except.ok impSrc =>
        let cpvs := extract_cpvs_from_text env.setOrder txt
        Except.ok
          { expediente := expediente
            organo := none
            importe := some impSrc.1
            importe_source := some impSrc.2
            objeto := some objeto
            cpv := if cpvs.isEmpty then none else some (joinSortedSet cpvs)
            cpv_source := if cpvs.isEmpty then none else some "detail"
            detail_status := some "fallback" }

/-- `enrich_by_detail(url)`.  The whole body sits in `try/except Exception`:
any exception raised inside — the fetch, or the `XPathEvalError` every
detail extraction raises — becomes the `{"detail_status": "exception"}`
dict instead of propagating. -/
def enrich_by_detail (env : Env) (url : String) : Extra :=
  match enrich_try_body env url with
  | Except.ok out => out
  | Except.error _ => { Extra.empty with detail_status := some "exception" }

/-! ### Feed collector (`collect` of `rss_generic.py`) -/

/-- One feedparser entry.  `getattr(e, a, None)` for the three timestamps is
`Option`; the `getattr(e, a, "") or ""` attributes are plain strings with
`""` for a missing value. -/
structure FeedEntry where
  published : Option String
  updated : Option String
  created : Option String
  title : String
  link : String
  summary : String

/-- The feed-derived working fields of one entry just before (and after) the
detail merge. -/
structure Baseline where
  expediente : String
  organo : String
  importe : String
  importe_source : String
  objeto : String
  cpvs : List String
  cpv_source : String
deriving DecidableEq

/-- The publish instant: first parseable of published → updated → created
(`for cand in [...]: pub = parse_date_any(cand); if pub: break`). -/
def entryPub (env : Env) (e : FeedEntry) : Option Int :=
  [e.published, e.updated, e.created].findSome? (parse_date_any env)

/-- The date-window gate `in_date_range(pub, date_start, date_end)`. -/
def passesFeedWindow (env : Env) (date_start date_end : Int) (e : FeedEntry) : Bool :=
  in_date_range (entryPub env e) date_start date_end

/-- The authority loop over the feed summary:
`for tag in ["Órgano", "Organismo", "Entidad", "Órgano de contratación"]`. -/
def organoFeedLoop (env : Env) (summary : String) : String
  :=
  match ["Órgano", "Organismo", "Entidad", "Órgano de contratación"].findSome?
      (fun tag => (env.searchOrgano tag summary).map norm_spaces) with
  | some v => v
  | none => ""

/-- The merge step of `collect` (lines 189–196 of `rss_generic.py`):
`x = extra.get(k, x)` for the scalar fields, the truthiness-guarded
`importe_source` update, and the CPV union
`cpvs = sorted(set(cpvs + extra["cpv"].split(";")))`. -/
def mergeWithDetail (extra : Extra) (b : Baseline) : Baseline :=
  { expediente := extra.expediente.getD b.expediente
    organo := extra.organo.getD b.organo
    importe := extra.importe.getD b.importe
    importe_source :=
      match extra.importe_source with
      | some s => if s == "" then b.importe_source else s
      | none => b.importe_source
    objeto := extra.objeto.getD b.objeto
    cpvs :=
      match extra.cpv with
      | some c =>
        if c == "" then b.cpvs else sortStr (dedupFirst (b.cpvs ++ splitSemi c))
      | none => b.cpvs
    cpv_source :=
      match extra.cpv with
      | some c => if c == "" then b.cpv_source else "detail"
      | none => b.cpv_source }

/-- The baseline after optional enrichment.  (`time.sleep(polite_delay)` has
no effect on the produced rows and is dropped; `enrich_by_detail` is a pure
function of `Env`, so using its value twice equals the single Python call.) -/
def entryMerged (env : Env) (follow_detail : Bool) (link : String)
    (b : Baseline) : Baseline :=
  if follow_detail && link != "" then mergeWithDetail (enrich_by_detail env link) b
  else b

/-- The `detail_status` assigned to the entry's row. -/
def entryDetailStatus (env : Env) (follow_detail : Bool) (link : String) : String :=
  if follow_detail && link != "" then
    (enrich_by_detail env link).detail_status.getD "parsed"
  else if !follow_detail then "skipped"
  else "no-link"

/-- `content = f"{title}\n{summary}"` over the normalized title/summary. -/
def entryContent (e : FeedEntry) : String :=
  norm_spaces e.title ++ "\n" ++ norm_spaces e.summary

/-- The feed-derived baseline fields of one entry (the straight-line body of
the `collect` loop before the detail branch). -/
def entryBaseline (env : Env) (e : FeedEntry) : Baseline :=
  let content := entryContent e
  let cpvs := extract_cpvs_from_text env.setOrder content
  { expediente := (env.searchExpediente content).getD ""
    organo := organoFeedLoop env (norm_spaces e.summary)
    importe :=
      match env.searchImporte content with
      | some m => norm_spaces m
      | none => ""
    importe_source :=
      match env.searchImporte content with
      | some _ => "feed"
      | none => ""
    objeto := norm_spaces e.title
    cpvs := cpvs
    cpv_source := if cpvs.isEmpty then "" else "feed" }

/-- The row dict appended for one surviving feed entry. -/
def mkEntryRow (env : Env) (source_name : String) (follow_detail : Bool)
    (e : FeedEntry) (m : Baseline) : Row :=
  { fuente := source_name
    expediente := m.expediente
    objeto := m.objeto
    organo := m.organo
    estado := ""
    importe := m.importe
    cpv := joinSemi m.cpvs
    fecha_published :=
      match entryPub env e with
      | some p => env.iso p
      | none => ""
    fecha_updated := ""
    enlace := e.link
    cpv_source := m.cpv_source
    importe_source := m.importe_source
    detail_status := entryDetailStatus env follow_detail e.link }

/-- The loop body of `collect` for one feed entry: `none` when the entry is
dropped (`continue`), `some row` when a row is appended. -/
def processEntry (env : Env) (source_name : String) (date_start date_end : Int)
    (cpv_targets : List String) (cpv_mode : String) (follow_detail : Bool)
    (e : FeedEntry) : Option Row :=
  if !passesFeedWindow env date_start date_end e then none
  else
    let m := entryMerged env follow_detail e.link (entryBaseline env e)
    if !cpv_targets.isEmpty && !cpv_match m.cpvs cpv_targets cpv_mode then none
    else some (mkEntryRow env source_name follow_detail e m)

/-- `collect` of `src/collectors/rss_generic.py`: the feed entries (already
parsed by feedparser, part of the fixed upstream data) are folded through the
per-entry loop body. -/
def collectRSS (env : Env) (source_name : String) (entries : List FeedEntry)
    (date_start date_end : Int) (cpv_targets : List String) (cpv_mode : String)
    (follow_detail : Bool) : List Row :=
  entries.filterMap
    (processEntry env source_name date_start date_end cpv_targets cpv_mode follow_detail)

/-! ## `src/collectors/placsp643.py` -/

/-- One `<entry>` element of an archive member, as read by the `_t1`/`_texts`
XPath helpers (a `string(...)` query on a missing node yields `""`). -/
structure AtomEntry where
  published : String
  updated : String
  /-- `ProcurementProject//ItemClassificationCode` text nodes. -/
  cpvFolder : List String
  /-- `ProcurementProjectLot//ItemClassificationCode` text nodes. -/
  cpvLots : List String
  /-- all `ItemClassificationCode` text nodes. -/
  cpvAll : List String
  expediente : String
  titulo : String
  organo : String
  importe : String
  estado : String
  /-- `link[@rel='alternate']/@href`. -/
  linkAlternate : String
  /-- first `link/@href`. -/
  linkAny : String

/-- One member of the monthly ZIP archive.  `good` members are those on which
`zf.read` succeeds and `etree.fromstring` (with `recover=True`) returns a
tree whose `entry` elements are `entries` (a recovered malformed file simply
has few or no entries).  `unreadable` members make `zf.read` raise `KeyError`
(caught by the source).  `unparsable` members are files on which even the
recovering parser raises `XMLSyntaxError` (e.g. an empty member) — the source
has no handler for that. -/
inductive Member where
  | good (name : String) (entries : List AtomEntry)
  | unreadable (name : String)
  | unparsable (name : String)

/-- The name of a member (`zf.namelist()` item). -/
def memberName : Member → String
  | Member.good n _ => n
  | Member.unreadable n => n
  | Member.unparsable n => n

/-- `_date_starts(e, iso_date, field)`: `bool(v) and v.startswith(iso_date)`. -/
def dateStarts (v : String) (iso_date : String) : Bool :=
  v != "" && pyStartswith v iso_date

/-- `_best_link(e)`: the `alternate` link, else any link. -/
def bestLink (e : AtomEntry) : String :=
  if e.linkAlternate != "" then e.linkAlternate else e.linkAny

/-- `_cpv_scoped(e, scope)`. -/
def cpvScoped (e : AtomEntry) (scope : String) : List String :=
  if scope = "folder" then e.cpvFolder
  else if scope = "lots" then e.cpvLots
  else e.cpvAll

/-- The target-set normalization inlined at the top of `placsp643.collect`
(same logic as `normalize_cpv_list`, duplicated in the source). -/
def placspTargets (cpv : List String) (cpv_mode : String) : List String :=
  dedupFirst (cpv.filterMap fun c0 =>
    let c := pyStrip c0
    if c = "" then none
    else if cpv_mode = "exact" then
      if isdigitS c then some (zfill8 c) else none
    else
      if isdigitS c && decide (2 ≤ c.length) && decide (c.length ≤ 8) then some c
      else none)

/-- The per-entry body of `placsp643.collect`: the date predicate over
`when`, the scoped CPV match, and the row construction with
`";".join(sorted(set(cpvs)))`. -/
def placspEntryStep (date_iso whenArg cpv_mode cpv_scope : String)
    (targets : List String) (e : AtomEntry) : Option Row :=
  let okDate :=
    (decide (whenArg = "updated") && dateStarts e.updated date_iso)
    || (decide (whenArg = "published") && dateStarts e.published date_iso)
    || (decide (whenArg = "either")
        && (dateStarts e.updated date_iso || dateStarts e.published date_iso))
  if !okDate then none
  else
    let cpvs := cpvScoped e cpv_scope
    if !targets.isEmpty && !cpv_match cpvs targets cpv_mode then none
    else some
      { fuente := "PLACSP"
        expediente := e.expediente
        objeto := e.titulo
        organo := e.organo
        estado := e.estado
        importe := e.importe
        cpv := joinSortedSet cpvs
        fecha_published := e.published
        fecha_updated := e.updated
        enlace := bestLink e
        cpv_source := ""
        importe_source := ""
        detail_status := "" }

/-- The member loop of `placsp643.collect`: non-`.atom` names are skipped;
a `KeyError` on `zf.read` is skipped; a parse failure in `_iter_entries`
propagates (`Except.error`), aborting the whole call. -/
def placspGo (date_iso whenArg cpv_mode cpv_scope : String)
    (targets : List String) : List Member → Except Unit (List Row)
  | [] => Except.ok []
  | m :: ms =>
    if !strEnds (pyLower (memberName m)) ".atom" then
      placspGo date_iso whenArg cpv_mode cpv_scope targets ms
    else
      match m with
      | Member.unreadable _ => placspGo date_iso whenArg cpv_mode cpv_scope targets ms
      | Member.unparsable _ => Except.error ()
      | Member.good _ es =>
        match placspGo date_iso whenArg cpv_mode cpv_scope targets ms with
        | Except.error e => Except.error e
        | Except.ok rest =>
          Except.ok
            ((es.filterMap (placspEntryStep date_iso whenArg cpv_mode cpv_scope targets))
              ++ rest)

/-- Sort key order of `rows.sort(key=lambda r: (expediente, enlace))`. -/
def rowLe (a b : Row) : Bool :=
  strLt a.expediente b.expediente
  || (a.expediente == b.expediente
      && (strLt a.enlace b.enlace || a.enlace == b.enlace))

/-- Stable insertion for the final sort (Python `list.sort` is stable). -/
def sortRowsInsert (x : Row) : List Row → List Row
  | [] => [x]
  | y :: ys => if rowLe x y then x :: y :: ys else y :: sortRowsInsert x ys

/-- Stable sort by `(expediente, enlace)`. -/
def sortRows (l : List Row) : List Row := l.foldr sortRowsInsert []

/-- `collect` of `src/collectors/placsp643.py`.  The archive bytes have been
fetched (`_http_get_bytes` — fixed upstream data) and opened; `members` is
the member list of the ZIP.  A parse failure of a member is an uncaught
exception: `Except.error`. -/
def placsp_collect (members : List Member) (date_iso whenArg : String)
    (cpv : List String) (cpv_mode cpv_scope : String) : Except Unit (List Row) :=
  let targets := placspTargets cpv cpv_mode
  match placspGo date_iso whenArg cpv_mode cpv_scope targets members with
  | Except.error e => Except.error e
  | Except.ok rows => Except.ok (sortRows rows)

/-! ## `src/run_daily.py` -/

/-- The deduplication key `(r.get("fuente"), r.get("expediente"), r.get("enlace"))`. -/
def rowKey (r : Row) : String × String × String :=
  (r.fuente, r.expediente, r.enlace)

/-- The dedup loop of `main`: `seen` set of keys, keep a row iff its key was
not seen before. -/
def dedupGo (seen : List (String × String × String)) : List Row → List Row
  | [] => []
  | r :: rs =>
    if rowKey r ∈ seen then dedupGo seen rs
    else r :: dedupGo (rowKey r :: seen) rs

/-- Orchestrator-level deduplication (lines 90–94 of `run_daily.py`). -/
def dedupRows (rows : List Row) : List Row := dedupGo [] rows

/-- What the spec says the dedup does, stated independently: keep each
record whose `(source, case-id, link)` triple has no earlier occurrence;
discard every later record with the same triple, whatever its other
fields. -/
def keepFirstOccurrences : List Row → List Row
  | [] => []
  | r :: rs =>
    r :: keepFirstOccurrences (rs.filter fun x => decide (rowKey x ≠ rowKey r))
termination_by l => l.length
decreasing_by
  simp only [List.length_cons]
  exact Nat.lt_succ_of_le (List.length_filter_le _ _)

/-- One configured RSS source: `{name, url, follow_detail}` plus the parsed
feed content of `url` (fixed upstream data). -/
structure FeedSource where
  name : String
  url : String
  entries : List FeedEntry
  follow_detail : Bool

/-- The PLACSP day loop of `main` (one `placsp_collect` call per ISO day in
the window; `archive` maps a day to the member list of the monthly ZIP it
resolves to).  An exception from a day's call propagates. -/
def pipelinePlacsp (archive : String → List Member) (days : List String)
    (whenArg : String) (cpvT : List String) (cpvMode cpvScope : String) :
    Except Unit (List Row) :=
  match days with
  | [] => Except.ok []
  | d :: ds =>
    match placsp_collect (archive d) d whenArg cpvT cpvMode cpvScope with
    | Except.error e => Except.error e
    | Except.ok r =>
      match pipelinePlacsp archive ds whenArg cpvT cpvMode cpvScope with
      | Except.error e => Except.error e
      | Except.ok rest => Except.ok (r ++ rest)

/-- The RSS source loop of `main` (`if not (name and url): continue`;
`rows += rss_collect(...)` in configured order). -/
def pipelineRss (env : Env) (sources : List FeedSource) (date_start date_end : Int)
    (cpvT : List String) (cpvMode : String) : List Row :=
  match sources with
  | [] => []
  | s :: ss =>
    (if s.name != "" && s.url != "" then
      collectRSS env s.name s.entries date_start date_end cpvT cpvMode s.follow_detail
     else [])
    ++ pipelineRss env ss date_start date_end cpvT cpvMode

/-- `main` of `src/run_daily.py`, after argument parsing and window
resolution: normalize the CPV targets once, run the PLACSP day loop and the
RSS source loop, concatenate (archive rows first), deduplicate.  The emitted
CSV rows are exactly the returned list. -/
def pipeline (env : Env) (archive : String → List Member) (days : List String)
    (whenArg : String) (cpvArg : List String) (cpvMode cpvScope : String)
    (sources : List FeedSource) (date_start date_end : Int)
    (noPlacsp noRss : Bool) : Except Unit (List Row) :=
  let cpvT := normalize_cpv_list cpvArg cpvMode
  match (if noPlacsp then Except.ok []
         else pipelinePlacsp archive days whenArg cpvT cpvMode cpvScope) with
  | Except.error e => Except.error e
  | Except.ok p =>
    let rss := if noRss then []
               else pipelineRss env sources date_start date_end cpvT cpvMode
    Except.ok (dedupRows (p ++ rss))

/-- `Except` projection used to state run results. -/
def runRows (x : Except Unit (List Row)) : List Row :=
  match x with
  | Except.ok l => l
  | Except.error _ => []

/-- Whether a run completed without an uncaught exception. -/
def exceptIsOk (x : Except Unit (List Row)) : Bool :=
  match x with
  | Except.ok _ => true
  | Except.error _ => false

/-! ## Helper lemmas -/

theorem mem_dedupFirstGo (a : String) :
    ∀ (l seen : List String), a ∈ dedupFirstGo seen l ↔ a ∈ l ∧ a ∉ seen := by
  intro l
  induction l with
  | nil => intro seen; simp [dedupFirstGo]
  | cons x xs ih =>
    intro seen
    by_cases hx : x ∈ seen
    · rw [dedupFirstGo, if_pos hx, ih]
      constructor
      · rintro ⟨h1, h2⟩; exact ⟨List.mem_cons_of_mem _ h1, h2⟩
      · rintro ⟨h1, h2⟩
        rcases List.mem_cons.mp h1 with h | h
        · subst h; exact absurd hx h2
        · exact ⟨h, h2⟩
    · rw [dedupFirstGo, if_neg hx]
      by_cases hax : a = x
      · subst hax
        constructor
        · intro _; exact ⟨List.mem_cons_self a xs, hx⟩
        · intro _; exact List.mem_cons_self a _
      · constructor
        · intro h
          rcases List.mem_cons.mp h with h | h
          · exact absurd h hax
          · rcases (ih (x :: seen)).mp h with ⟨h1, h2⟩
            exact ⟨List.mem_cons_of_mem _ h1,
              fun hs => h2 (List.mem_cons_of_mem _ hs)⟩
        · rintro ⟨h1, h2⟩
          rcases List.mem_cons.mp h1 with h | h
          · exact absurd h hax
          · exact List.mem_cons_of_mem _ ((ih (x :: seen)).mpr
              ⟨h, fun hs => (List.mem_cons.mp hs).elim hax h2⟩)

theorem mem_dedupFirst (a : String) (l : List String) :
    a ∈ dedupFirst l ↔ a ∈ l := by
  rw [dedupFirst, mem_dedupFirstGo]
  simp

theorem dedupFirst_eq_nil_iff (l : List String) :
    dedupFirst l = [] ↔ l = [] := by
  cases l with
  | nil => simp [dedupFirst, dedupFirstGo]
  | cons x xs => simp [dedupFirst, dedupFirstGo]

theorem mem_ordInsertStr (a x : String) (l : List String) :
    a ∈ ordInsertStr x l ↔ a = x ∨ a ∈ l := by
  induction l with
  | nil => simp [ordInsertStr]
  | cons y ys ih =>
    rw [ordInsertStr]
    by_cases h : strLt x y = true
    · rw [if_pos h]; simp [List.mem_cons]
    · rw [if_neg h]
      simp only [List.mem_cons, ih]
      tauto

theorem mem_sortStr (a : String) (l : List String) :
    a ∈ sortStr l ↔ a ∈ l := by
  induction l with
  | nil => simp [sortStr]
  | cons x xs ih =>
    show a ∈ ordInsertStr x (sortStr xs) ↔ _
    rw [mem_ordInsertStr, ih]
    simp [List.mem_cons]

/-! ## Claim C4 — `cpv_match` case analysis -/

/-- C4: for every candidate set, target set and mode, `cpv_match` returns
`true` on an empty target set; `false` on an empty candidate set with
non-empty targets; in exact mode it is non-empty intersection; in prefix
mode it is "some candidate starts with some target" (candidate on the left
of `startswith` — asymmetric). -/
theorem C4_cpv_match_semantics :
    ∀ (values targets : List String) (mode : String),
    (targets = [] → cpv_match values targets mode = true) ∧
    (values = [] → targets ≠ [] → cpv_match values targets mode = false) ∧
    (targets ≠ [] →
      (cpv_match values targets "exact" = true ↔ ∃ v ∈ values, v ∈ targets)) ∧
    (targets ≠ [] →
      (cpv_match values targets "prefix" = true ↔
        ∃ v ∈ values, ∃ t ∈ targets, pyStartswith v t = true)) := by
  intro values targets mode
  refine ⟨?_, ?_, ?_, ?_⟩
  · intro h; subst h; simp [cpv_match]
  · intro hv ht; subst hv
    rw [cpv_match, if_neg (by simpa using ht)]
    simp [dedupFirst, dedupFirstGo]
  · intro ht
    rw [cpv_match, if_neg (by simpa using ht)]
    by_cases hv : values = []
    · subst hv
      simp [dedupFirst, dedupFirstGo]
    · rw [if_neg (by simpa using (mt (dedupFirst_eq_nil_iff values).mp hv)),
        if_pos rfl]
      rw [List.any_eq_true]
      constructor
      · rintro ⟨v, hv1, hv2⟩
        exact ⟨v, (mem_dedupFirst v values).mp hv1, of_decide_eq_true hv2⟩
      · rintro ⟨v, hv1, hv2⟩
        exact ⟨v, (mem_dedupFirst v values).mpr hv1, decide_eq_true hv2⟩
  · intro ht
    rw [cpv_match, if_neg (by simpa using ht)]
    by_cases hv : values = []
    · subst hv
      simp [dedupFirst, dedupFirstGo]
    · rw [if_neg (by simpa using (mt (dedupFirst_eq_nil_iff values).mp hv)),
        if_neg (by decide)]
      rw [List.any_eq_true]
      constructor
      · rintro ⟨v, hv1, hv2⟩
        rcases List.any_eq_true.mp hv2 with ⟨t, ht1, ht2⟩
        exact ⟨v, (mem_dedupFirst v values).mp hv1, t, ht1, ht2⟩
      · rintro ⟨v, hv1, t, ht1, ht2⟩
        exact ⟨v, (mem_dedupFirst v values).mpr hv1,
          List.any_eq_true.mpr ⟨t, ht1, ht2⟩⟩

/-- Witness for C4 at the spec's own test vectors. -/
theorem C4_witness :
    cpv_match ["45261215"] ["45261215"] "exact" = true ∧
    cpv_match ["45261216"] ["45261215"] "exact" = false ∧
    cpv_match [] ["45261215"] "exact" = false ∧
    cpv_match ["45261215"] [] "exact" = true ∧
    cpv_match ["45261215"] ["4526"] "prefix" = true := by
  refine ⟨?_, ?_, ?_, ?_, ?_⟩
  · exact ((C4_cpv_match_semantics ["45261215"] ["45261215"] "exact").2.2.1
      (by decide)).mpr ⟨"45261215", by decide, by decide⟩
  · by_contra h
    have h2 := ((C4_cpv_match_semantics ["45261216"] ["45261215"] "exact").2.2.1
      (by decide)).mp (by revert h; decide)
    revert h2; decide
  · exact (C4_cpv_match_semantics [] ["45261215"] "exact").2.1 rfl (by decide)
  · exact (C4_cpv_match_semantics ["45261215"] [] "exact").1 rfl
  · exact ((C4_cpv_match_semantics ["45261215"] ["4526"] "prefix").2.2.2
      (by decide)).mpr ⟨"45261215", by decide, "4526", by decide, by decide⟩

/-! ## Claim C5 — `normalize_cpv_list` in exact mode -/

theorem zfill8_length (t : String) : (zfill8 t).length = max 8 t.length := by
  rw [zfill8]
  by_cases h : 8 ≤ t.length
  · rw [if_pos h]; omega
  · rw [if_neg h]
    show (List.replicate (8 - t.length) '0' ++ t.data).length = _
    rw [List.length_append, List.length_replicate]
    have : t.data.length = t.length := rfl
    omega

theorem zfill8_isdigit (t : String) (h : isdigitS t = true) :
    isdigitS (zfill8 t) = true := by
  rw [isdigitS, Bool.and_eq_true] at h
  have hne : t.data ≠ [] := by
    intro hd
    rw [hd] at h
    simp at h
  rw [zfill8]
  by_cases h8 : 8 ≤ t.length
  · rw [if_pos h8, isdigitS, Bool.and_eq_true]; exact h
  · rw [if_neg h8, isdigitS, Bool.and_eq_true]
    constructor
    · show (!(List.replicate (8 - t.length) '0' ++ t.data).isEmpty) = true
      cases hl : List.replicate (8 - t.length) '0' ++ t.data with
      | nil =>
        rcases List.append_eq_nil.mp hl with ⟨_, h2⟩
        exact absurd h2 hne
      | cons a l => rfl
    · show (List.replicate (8 - t.length) '0' ++ t.data).all Char.isDigit = true
      rw [List.all_append, Bool.and_eq_true]
      refine ⟨List.all_eq_true.mpr ?_, h.2⟩
      intro c hc
      rw [List.eq_of_mem_replicate hc]
      decide

/-- The `filterMap` body of `normalize_cpv_list` in exact mode. -/
theorem normalize_exact_step (c0 s : String) :
    ((let c := pyStrip c0
      if c = "" then none
      else if ("exact" : String) = "exact" then
        if isdigitS c then some (zfill8 c) else none
      else
        if isdigitS c && decide (2 ≤ c.length) && decide (c.length ≤ 8) then some c
        else none) = some s) ↔
    (pyStrip c0 ≠ "" ∧ isdigitS (pyStrip c0) = true ∧ s = zfill8 (pyStrip c0)) := by
  show (if pyStrip c0 = "" then none
        else if ("exact" : String) = "exact" then
          if isdigitS (pyStrip c0) then some (zfill8 (pyStrip c0)) else none
        else
          if isdigitS (pyStrip c0) && decide (2 ≤ (pyStrip c0).length)
              && decide ((pyStrip c0).length ≤ 8) then some (pyStrip c0)
          else none) = some s ↔ _
  split_ifs with h1 hex h2
  · simp [h1]
  · simp only [Option.some_inj]
    constructor
    · intro h; exact ⟨h1, h2, h.symm⟩
    · rintro ⟨_, _, h⟩; exact h.symm
  · simp only [false_iff, reduceCtorEq]
    rintro ⟨_, hh, _⟩
    exact h2 hh
  · exact absurd rfl hex
  · exact absurd rfl hex

/-- C5 counterexample: a 9-digit numeric raw code survives normalization
unchanged, so not every element of the result is an 8-digit string (the
claim asserts it is). -/
theorem C5_counterexample :
    normalize_cpv_list ["123456789"] "exact" = ["123456789"] ∧
    ¬ (∀ s ∈ normalize_cpv_list ["123456789"] "exact", s.length = 8) := by
  constructor
  · decide
  · decide

/-- C5 amended: in exact mode, normalization keeps exactly the numeric
entries (after stripping), left-zero-padding each to a *minimum* width of 8,
so every element is a digit string of length `max 8 (raw length)` — exactly
8 whenever the raw numeric entry has at most 8 digits, longer otherwise. -/
theorem C5_normalize_exact_amended :
    ∀ (codes : List String) (s : String),
    (s ∈ normalize_cpv_list codes "exact" ↔
      ∃ c ∈ codes, pyStrip c ≠ "" ∧ isdigitS (pyStrip c) = true ∧
        s = zfill8 (pyStrip c)) ∧
    (s ∈ normalize_cpv_list codes "exact" →
      isdigitS s = true ∧ 8 ≤ s.length) ∧
    (∀ t : String, (zfill8 t).length = max 8 t.length) := by
  intro codes s
  have hmem : s ∈ normalize_cpv_list codes "exact" ↔
      ∃ c ∈ codes, pyStrip c ≠ "" ∧ isdigitS (pyStrip c) = true ∧
        s = zfill8 (pyStrip c) := by
    rw [normalize_cpv_list, mem_dedupFirst, List.mem_filterMap]
    constructor
    · rintro ⟨c, hc, hstep⟩
      exact ⟨c, hc, (normalize_exact_step c s).mp hstep⟩
    · rintro ⟨c, hc, hstep⟩
      exact ⟨c, hc, (normalize_exact_step c s).mpr hstep⟩
  refine ⟨hmem, ?_, zfill8_length⟩
  intro hs
  rcases hmem.mp hs with ⟨c, _, _, hdig, heq⟩
  subst heq
  refine ⟨zfill8_isdigit _ hdig, ?_⟩
  rw [zfill8_length]
  omega

/-- Witness for C5 at the spec's own test vectors: `"933"` becomes
`"00000933"` (kept, 8 digits), `"ABC123"` is dropped. -/
theorem C5_witness :
    "00000933" ∈ normalize_cpv_list ["933", "ABC123"] "exact" ∧
    "ABC123" ∉ normalize_cpv_list ["933", "ABC123"] "exact" ∧
    ("00000933".length = 8 ∧ isdigitS "00000933" = true) := by
  have h1 : "00000933" ∈ normalize_cpv_list ["933", "ABC123"] "exact" :=
    ((C5_normalize_exact_amended ["933", "ABC123"] "00000933").1).mpr
      ⟨"933", by decide, by decide, by decide, by decide⟩
  have h2 := (C5_normalize_exact_amended ["933", "ABC123"] "00000933").2.1 h1
  refine ⟨h1, ?_, by decide, h2.1⟩
  intro h
  rcases ((C5_normalize_exact_amended ["933", "ABC123"] "ABC123").1).mp h with
    ⟨c, hc, hrest⟩
  simp only [List.mem_cons, List.not_mem_nil, or_false] at hc
  rcases hc with h | h
  · subst h; revert hrest; decide
  · subst h; revert hrest; decide

/-! ## Claim C6 — orchestrator deduplication -/

theorem keepFirstOccurrences_cons (r : Row) (rs : List Row) :
    keepFirstOccurrences (r :: rs) =
      r :: keepFirstOccurrences (rs.filter fun x => decide (rowKey x ≠ rowKey r)) := by
  rw [keepFirstOccurrences]

theorem dedupGo_eq_keepFirst :
    ∀ (l : List Row) (seen : List (String × String × String)),
    dedupGo seen l =
      keepFirstOccurrences (l.filter fun r => decide (rowKey r ∉ seen)) := by
  intro l
  induction l with
  | nil =>
    intro seen
    rw [dedupGo, List.filter_nil, keepFirstOccurrences]
  | cons r rs ih =>
    intro seen
    by_cases hr : rowKey r ∈ seen
    · rw [dedupGo, if_pos hr, List.filter_cons, if_neg (by simp [hr])]
      exact ih seen
    · rw [dedupGo, if_neg hr, List.filter_cons, if_pos (by simp [hr]),
        keepFirstOccurrences_cons, ih (rowKey r :: seen), List.filter_filter]
      congr 1
      congr 1
      apply List.filter_congr
      intro x _
      by_cases h1 : rowKey x = rowKey r
      · simp [List.mem_cons, h1]
      · by_cases h2 : rowKey x ∈ seen
        · simp [List.mem_cons, h1, h2]
        · simp [List.mem_cons, h1, h2]

theorem keepFirst_mem :
    ∀ (n : Nat) (l : List Row) (x : Row),
    l.length ≤ n → x ∈ keepFirstOccurrences l → x ∈ l := by
  intro n
  induction n with
  | zero =>
    intro l x hl hm
    have h0 : l = [] := List.eq_nil_of_length_eq_zero (Nat.le_zero.mp hl)
    subst h0
    rw [keepFirstOccurrences] at hm
    exact absurd hm (List.not_mem_nil x)
  | succ n ih =>
    intro l x hl hm
    cases l with
    | nil =>
      rw [keepFirstOccurrences] at hm
      exact absurd hm (List.not_mem_nil x)
    | cons r rs =>
      rw [keepFirstOccurrences_cons] at hm
      rcases List.mem_cons.mp hm with h | h
      · exact h ▸ List.mem_cons_self _ _
      · have hlen : (rs.filter fun y => decide (rowKey y ≠ rowKey r)).length ≤ n := by
          have := List.length_filter_le (fun y => decide (rowKey y ≠ rowKey r)) rs
          simp only [List.length_cons] at hl
          omega
        have := ih _ x hlen h
        exact List.mem_cons_of_mem _ (List.mem_filter.mp this).1

theorem keepFirst_keys_nodup :
    ∀ (n : Nat) (l : List Row),
    l.length ≤ n → ((keepFirstOccurrences l).map rowKey).Nodup := by
  intro n
  induction n with
  | zero =>
    intro l hl
    have h0 : l = [] := List.eq_nil_of_length_eq_zero (Nat.le_zero.mp hl)
    subst h0
    rw [keepFirstOccurrences]
    exact List.nodup_nil
  | succ n ih =>
    intro l hl
    cases l with
    | nil =>
      rw [keepFirstOccurrences]
      exact List.nodup_nil
    | cons r rs =>
      have hlen : (rs.filter fun y => decide (rowKey y ≠ rowKey r)).length ≤ n := by
        have := List.length_filter_le (fun y => decide (rowKey y ≠ rowKey r)) rs
        simp only [List.length_cons] at hl
        omega
      rw [keepFirstOccurrences_cons, List.map_cons, List.nodup_cons]
      constructor
      · intro hmem
        rcases List.mem_map.mp hmem with ⟨y, hy, hkey⟩
        have hy2 := keepFirst_mem n _ y hlen hy
        have hne := of_decide_eq_true (List.mem_filter.mp hy2).2
        exact hne hkey
      · exact ih _ hlen

/-- C6: for every concatenated record list, the orchestrator's dedup keeps
exactly the first occurrence of each `(source, case-id, link)` triple —
discarding every later record with the same triple whatever its other
fields, as `keepFirstOccurrences` does by construction — and the emitted
rows contain no duplicate triple. -/
theorem C6_dedup_keeps_first :
    ∀ rows : List Row,
    dedupRows rows = keepFirstOccurrences rows ∧
    ((dedupRows rows).map rowKey).Nodup := by
  intro rows
  have h : dedupRows rows = keepFirstOccurrences rows := by
    rw [dedupRows, dedupGo_eq_keepFirst]
    congr 1
    apply List.filter_eq_self.mpr
    intro x _
    simp
  refine ⟨h, ?_⟩
  rw [h]
  exact keepFirst_keys_nodup rows.length rows le_rfl

/-! ## Claim C7 — extractor dispatch by host -/

theorem strStarts_iff :
    ∀ (p l : List Char), strStarts p l = true ↔ ∃ t, l = p ++ t := by
  intro p
  induction p with
  | nil => intro l; simp [strStarts]
  | cons a ps ih =>
    intro l
    cases l with
    | nil => simp [strStarts]
    | cons c cs =>
      rw [strStarts, Bool.and_eq_true, beq_iff_eq, ih]
      constructor
      · rintro ⟨h1, t, h2⟩
        exact ⟨t, by rw [← h1, h2]; rfl⟩
      · rintro ⟨t, h⟩
        injection h with h1 h2
        exact ⟨h1.symm, t, h2⟩

theorem strHas_iff :
    ∀ (n h : List Char), strHas n h = true ↔ ∃ pre suf, h = pre ++ n ++ suf := by
  intro n h
  induction h with
  | nil =>
    rw [strHas]
    constructor
    · intro he
      have hn : n = [] := by
        cases n with
        | nil => rfl
        | cons a as => simp [List.isEmpty] at he
      exact ⟨[], [], by rw [hn]; rfl⟩
    · rintro ⟨pre, suf, hps⟩
      rcases List.append_eq_nil.mp hps.symm with ⟨h1, _⟩
      rcases List.append_eq_nil.mp h1 with ⟨_, h3⟩
      rw [h3]
      rfl
  | cons c cs ih =>
    rw [strHas, Bool.or_eq_true, strStarts_iff, ih]
    constructor
    · rintro (⟨t, ht⟩ | ⟨pre, suf, hps⟩)
      · exact ⟨[], t, by rw [ht]; rfl⟩
      · exact ⟨c :: pre, suf, by rw [hps]; rfl⟩
    · rintro ⟨pre, suf, hps⟩
      cases pre with
      | nil =>
        left
        exact ⟨suf, by simpa using hps⟩
      | cons p ps =>
        right
        injection hps with h1 h2
        exact ⟨ps, suf, h2⟩

/-- C7 counterexample: for a URL whose (lowercased) host strictly contains a
registry domain in its *middle*, the Madrid extractor is selected although no
registry domain equals the host or is a suffix of it — the claim says the
generic fallback must be used then.  The dispatch is substring containment
(`dom in host`), not exact-or-suffix comparison. -/
theorem C7_counterexample :
    selectParser "contratos-publicos.comunidad.madrid.attacker.example"
      = some ParserId.madrid ∧
    (∀ p ∈ PARSERS_BY_DOMAIN,
      ¬ (p.1 = "contratos-publicos.comunidad.madrid.attacker.example" ∨
         strEnds "contratos-publicos.comunidad.madrid.attacker.example" p.1
           = true)) := by
  decide

/-- C7 amended: the per-domain extractor is selected by case-insensitive
*substring* containment of a registry domain in the URL's host (first match
in registry order), and the generic fallback is used iff no registry domain
occurs as a substring of the host.  Exact or suffix matches are special
cases of substring containment, so they are still dispatched. -/
theorem C7_dispatch_amended :
    ∀ host : String,
    ((selectParser host).isNone = true ↔
      ∀ p ∈ PARSERS_BY_DOMAIN, ¬ ∃ pre suf, host.data = pre ++ p.1.data ++ suf) ∧
    (∀ p ∈ PARSERS_BY_DOMAIN,
      (p.1 = host ∨ ∃ pre, host.data = pre ++ p.1.data) →
      (selectParser host).isSome = true) := by
  intro host
  have hiff : ∀ p : String × ParserId,
      strIn p.1 host = true ↔ ∃ pre suf, host.data = pre ++ p.1.data ++ suf := by
    intro p
    rw [strIn]
    exact strHas_iff p.1.data host.data
  constructor
  · rw [selectParser]
    cases hfind : PARSERS_BY_DOMAIN.find? (fun q => strIn q.1 host) with
    | none =>
      simp only [Option.map_none', Option.isNone_none, true_iff]
      intro p hp hex
      exact (List.find?_eq_none.mp hfind p hp) ((hiff p).mpr hex)
    | some q =>
      simp only [Option.map_some', Option.isNone_some]
      constructor
      · intro h; exact absurd h (by simp)
      · intro hall
        have hq := List.find?_some hfind
        exact absurd ((hiff q).mp hq)
          (hall q (List.mem_of_find?_eq_some hfind))
  · intro p hp hcase
    have hpred : strIn p.1 host = true := by
      apply (hiff p).mpr
      rcases hcase with h | ⟨pre, hpre⟩
      · exact ⟨[], [], by rw [h]; simp⟩
      · exact ⟨pre, [], by rw [hpre]; simp⟩
    cases hfind : PARSERS_BY_DOMAIN.find? (fun q => strIn q.1 host) with
    | none => exact absurd hpred (List.find?_eq_none.mp hfind p hp)
    | some q => simp [selectParser, hfind]

/-- Witness for C7: a registered host equal to a registry domain is
dispatched to its extractor. -/
theorem C7_witness :
    (selectParser "www.contratosdegalicia.gal").isSome = true :=
  (C7_dispatch_amended "www.contratosdegalicia.gal").2
    ("www.contratosdegalicia.gal", ParserId.galicia) (by decide) (Or.inl rfl)

/-! ## Claim C8 — archive member failures -/

/-- A well-formed archive member entry matching the requested day/CPV. -/
def atomEntryC8 : AtomEntry :=
  { published := "2025-09-23T10:00:00"
    updated := ""
    cpvFolder := ["45261215"]
    cpvLots := []
    cpvAll := ["45261215"]
    expediente := "EXP/2025/1"
    titulo := "Obra de cubierta"
    organo := "Ayuntamiento"
    importe := "1000"
    estado := "PUB"
    linkAlternate := "http://example.org/a"
    linkAny := "" }

/-- A member that reads and parses fine. -/
def goodMemberC8 : Member := Member.good "a.atom" [atomEntryC8]

/-- A member on which `etree.fromstring` raises even with `recover=True`
(e.g. an empty `.atom` file). -/
def badMemberC8 : Member := Member.unparsable "b.atom"

/-- C8: an archive containing one well-formed member (whose entry matches
the day and CPV filter) plus one member that fails to parse makes the whole
collector call raise (`Except.error`), returning *no* rows — the claim says
the bad member is skipped and the good member's records are returned.
Without the unparsable member the same archive yields the record. -/
theorem C8_archive_abort_on_unparsable :
    placsp_collect [goodMemberC8, badMemberC8] "2025-09-23" "published"
      ["45261215"] "exact" "folder" = Except.error () ∧
    exceptIsOk (placsp_collect [goodMemberC8] "2025-09-23" "published"
      ["45261215"] "exact" "folder") = true ∧
    (runRows (placsp_collect [goodMemberC8] "2025-09-23" "published"
      ["45261215"] "exact" "folder")).map Row.expediente = ["EXP/2025/1"] := by
  refine ⟨?_, ?_, ?_⟩ <;> rfl

/-! ## Claim C9 — detail-enrichment failures are contained -/

theorem enrich_try_body_cases (env : Env) (url : String) :
    enrich_try_body env url
        = Except.ok { Extra.empty with detail_status := some "fetch-failed" } ∨
    enrich_try_body env url = Except.error () := by
  cases hf : env.fetch url with
  | error e => right; cases e; simp [enrich_try_body, hf]
  | ok od =>
    cases od with
    | none => left; simp [enrich_try_body, hf]
    | some doc =>
      cases hs : selectParser (pyLower (env.hostname url)) with
      | some pid =>
        right
        cases pid <;> simp [enrich_try_body, hf, hs, applyParser,
          parse_detail_madrid, parse_detail_galicia, extract_amount_by_labels,
          amountLabels, amountLabelLoop, amountLabelQuery]
      | none =>
        right
        simp [enrich_try_body, hf, hs, extract_amount_by_labels,
          amountLabels, amountLabelLoop, amountLabelQuery]

theorem enrich_status_cases (env : Env) (url : String) :
    (enrich_by_detail env url).detail_status = some "parsed" ∨
    (enrich_by_detail env url).detail_status = some "fallback" ∨
    (enrich_by_detail env url).detail_status = some "fetch-failed" ∨
    (enrich_by_detail env url).detail_status = some "exception" := by
  rcases enrich_try_body_cases env url with h | h
  · right; right; left
    rw [enrich_by_detail, h]
  · right; right; right
    rw [enrich_by_detail, h]

theorem entryDetailStatus_mem (env : Env) (fd : Bool) (link : String) :
    entryDetailStatus env fd link ∈
      ["parsed", "fallback", "fetch-failed", "exception", "skipped", "no-link"] := by
  rw [entryDetailStatus]
  by_cases h : (fd && link != "") = true
  · rw [if_pos h]
    rcases enrich_status_cases env link with hs | hs | hs | hs <;>
      rw [hs] <;> simp
  · rw [if_neg h]
    by_cases h2 : (!fd) = true
    · rw [if_pos h2]; simp
    · rw [if_neg h2]; simp

/-- C9: with detail-following enabled, (a) the enrichment step always yields
a status among parsed/fallback/fetch-failed/exception — the `try/except`
around `enrich_by_detail` converts any raised fetch into the `exception`
dict instead of propagating; (b) the collector processes entry lists
compositionally (an entry never aborts the remaining entries); (c) every
produced row's `detail_status` lies in the claimed six-value set; (d) with
no CPV filter, every window-passing entry yields a record. -/
theorem C9_enrichment_contained :
    ∀ (env : Env) (name : String) (es es2 : List FeedEntry) (ds de : Int)
      (tg : List String) (mode : String) (url : String) (e : FeedEntry),
    ((enrich_by_detail env url).detail_status.getD "parsed" ∈
      ["parsed", "fallback", "fetch-failed", "exception"]) ∧
    (collectRSS env name (es ++ es2) ds de tg mode true =
      collectRSS env name es ds de tg mode true
        ++ collectRSS env name es2 ds de tg mode true) ∧
    (∀ r ∈ collectRSS env name es ds de tg mode true,
      r.detail_status ∈
        ["parsed", "fallback", "fetch-failed", "exception", "skipped", "no-link"]) ∧
    (tg = [] → passesFeedWindow env ds de e = true →
      (processEntry env name ds de tg mode true e).isSome = true) := by
  intro env name es es2 ds de tg mode url e
  refine ⟨?_, ?_, ?_, ?_⟩
  · rcases enrich_status_cases env url with hs | hs | hs | hs <;> rw [hs] <;> simp
  · exact List.filterMap_append es es2 _
  · intro r hr
    rcases List.mem_filterMap.mp hr with ⟨en, hen, hpe⟩
    have hds : r.detail_status = entryDetailStatus env true en.link := by
      simp only [processEntry] at hpe
      split at hpe
      · simp at hpe
      · split at hpe
        · simp at hpe
        · injection hpe with h
          rw [← h]
          rfl
    rw [hds]
    exact entryDetailStatus_mem env true en.link
  · intro htg hw
    subst htg
    simp [processEntry, hw]

/-! ## Concrete environments for counterexamples and witnesses -/

/-- A detail document with nothing extractable: empty headings and text,
no label hits, no CPV table rows. -/
def docEmpty : Doc :=
  { heading := ""
    textContent := ""
    organoFollowing := fun _ => "" }

/-- Concrete oracle environment, parameterized by the set iteration order.
`"2025-09-23"` parses to instant 5; the amount regex finds `" 1.000,00 €"`
exactly in strings containing `€` (consistent with `[\d\.\s]+,\d{2}\s*€` on
the concrete strings used below, and finding nothing in the empty detail
text); the case-id and authority regexes find nothing (the concrete strings
contain no `/`-pattern and no labels); every detail URL resolves to the
Madrid host and fetches `docEmpty`. -/
def envBase (ord : List String → List String) : Env :=
  { pd := fun s => if s == "2025-09-23" then some 5 else none
    iso := fun _ => "2025-09-23T00:00:00"
    searchExpediente := fun _ => none
    searchOrgano := fun _ _ => none
    searchImporte := fun s => if strIn "€" s then some " 1.000,00 €" else none
    hostname := fun _ => "contratos-publicos.comunidad.madrid"
    fetch := fun _ => Except.ok (some docEmpty)
    setOrder := ord }

/-- An in-window entry with no link (detail following enabled but nothing
to fetch). -/
def entryC9 : FeedEntry :=
  { published := some "2025-09-23"
    updated := none
    created := none
    title := "Obra"
    link := ""
    summary := "" }

/-- Witness for C9 at a concrete environment and entry. -/
theorem C9_witness :
    ((enrich_by_detail (envBase ordId) "http://x").detail_status.getD "parsed" ∈
      ["parsed", "fallback", "fetch-failed", "exception"]) ∧
    (processEntry (envBase ordId) "S" 0 10 [] "exact" true entryC9).isSome
      = true :=
  ⟨(C9_enrichment_contained (envBase ordId) "S" [] [] 0 10 [] "exact"
      "http://x" entryC9).1,
   (C9_enrichment_contained (envBase ordId) "S" [] [] 0 10 [] "exact"
      "http://x" entryC9).2.2.2 rfl (by decide)⟩

/-! ## Claim C1 — detail-merge precedence -/

/-- A feed entry carrying a non-empty feed-derived amount and a detail link
into the Madrid portal. -/
def entryC1 : FeedEntry :=
  { published := some "2025-09-23"
    updated := none
    created := none
    title := ""
    link := "http://contratos-publicos.comunidad.madrid/t/1"
    summary := "Importe: 1.000,00 €" }

/-- C1: the merge-precedence machinery the claim describes is dead code.
`_extract_amount_by_labels` raises `XPathEvalError` on every document (its
one-argument `contains()`, `rss_generic.py:40`; likewise the Galicia
CPV-table query, line 96), so every detail parser and the generic fallback
raise, `enrich_by_detail` only ever returns a status dict (`exception`, or
`fetch-failed` for a `None` document), and the merge leaves every
feed-derived field — the CPV set included — unchanged.  No non-empty
detail-derived value ever overwrites anything and no CPV union ever
happens; in particular the spec's own merge example (empty feed amount +
detail page carrying `"1.234,56 €"` → merged `"1.234,56 €"`) is
unrealizable.  At the concrete entry `entryC1`, whose Madrid detail page is
fetched successfully, the feed amount survives unchanged with and without
enrichment and the status tag is `exception`. -/
theorem C1_dead_merge_precedence :
    (∀ (env : Env) (doc : Doc),
      extract_amount_by_labels env doc = Except.error () ∧
      parse_detail_madrid env doc = Except.error () ∧
      parse_detail_galicia env doc = Except.error ()) ∧
    (∀ (env : Env) (url : String),
      enrich_by_detail env url
          = { Extra.empty with detail_status := some "exception" } ∨
      enrich_by_detail env url
          = { Extra.empty with detail_status := some "fetch-failed" }) ∧
    (∀ (env : Env) (url : String) (b : Baseline),
      mergeWithDetail (enrich_by_detail env url) b = b) ∧
    ((collectRSS (envBase ordId) "MAD" [entryC1] 0 10 [] "exact" false).map
        Row.importe = ["1.000,00 €"] ∧
     (collectRSS (envBase ordId) "MAD" [entryC1] 0 10 [] "exact" true).map
        Row.importe = ["1.000,00 €"] ∧
     (collectRSS (envBase ordId) "MAD" [entryC1] 0 10 [] "exact" true).map
        Row.detail_status = ["exception"]) := by
  have hmain : ∀ (env : Env) (url : String),
      enrich_by_detail env url
          = { Extra.empty with detail_status := some "exception" } ∨
      enrich_by_detail env url
          = { Extra.empty with detail_status := some "fetch-failed" } := by
    intro env url
    rcases enrich_try_body_cases env url with h | h
    · right
      rw [enrich_by_detail, h]
    · left
      rw [enrich_by_detail, h]
  refine ⟨?_, hmain, ?_, ?_, ?_, ?_⟩
  · intro env doc
    exact ⟨rfl, rfl, rfl⟩
  · intro env url b
    rcases hmain env url with h | h <;> rw [h] <;> rfl
  · rfl
  · rfl
  · rfl

/-! ## Claim C3 — CPV field well-formedness -/

/-- An in-window entry whose text carries two CPV codes, larger one first. -/
def entryC3 : FeedEntry :=
  { published := some "2025-09-23"
    updated := none
    created := none
    title := ""
    link := ""
    summary := "45261216 45261215" }

/-- Modelled from the spec: "CPV set is serialized as a semicolon-joined,
sorted, unique list of 8-digit codes" — the invariant the claim asserts of
every emitted record. -/
def cpvFieldWellFormed (s : String) : Prop :=
  splitSemi s = sortStr (splitSemi s) ∧ (splitSemi s).Nodup ∧
    ∀ p ∈ splitSemi s, p.length = 8

/-- C3: under the (valid) identity set-iteration order, the feed collector
emits the CPV field `"45261216;45261215"` — duplicate-free 8-digit codes,
but *not* sorted, because `collect` joins `extract_cpvs_from_text`'s
unordered set listing without sorting when no detail CPVs were merged. -/
theorem C3_unsorted_cpv_field :
    ValidOrder ordId ∧
    (collectRSS (envBase ordId) "GAL" [entryC3] 0 10 [] "exact" false).map
      Row.cpv = ["45261216;45261215"] ∧
    ¬ cpvFieldWellFormed "45261216;45261215" := by
  refine ⟨fun l => List.Perm.refl l, ?_, ?_⟩
  · rfl
  · intro h
    have h1 := h.1
    revert h1
    decide

/-! ## Claim C2 — run determinism -/

/-- The configured feed source carrying `entryC3`. -/
def srcC2 : FeedSource :=
  { name := "GAL"
    url := "http://feed.example/gal"
    entries := [entryC3]
    follow_detail := false }

/-- C2: two runs of the full pipeline over the *same* upstream data and run
parameters, differing only in the Python set-iteration order (both orders
are valid enumerations, as arise under different hash seeds), both complete
and produce different deduplicated outputs: the CPV field of the feed record
comes out as `"45261216;45261215"` in one run and `"45261215;45261216"` in
the other. -/
theorem C2_nondeterministic_output :
    ValidOrder ordId ∧ ValidOrder ordRev ∧
    exceptIsOk (pipeline (envBase ordId) (fun _ => []) [] "either" [] "exact"
      "folder" [srcC2] 0 10 true false) = true ∧
    exceptIsOk (pipeline (envBase ordRev) (fun _ => []) [] "either" [] "exact"
      "folder" [srcC2] 0 10 true false) = true ∧
    runRows (pipeline (envBase ordId) (fun _ => []) [] "either" [] "exact"
      "folder" [srcC2] 0 10 true false) ≠
      runRows (pipeline (envBase ordRev) (fun _ => []) [] "either" [] "exact"
        "folder" [srcC2] 0 10 true false) := by
  refine ⟨fun l => List.Perm.refl l, fun l => List.reverse_perm l, ?_, ?_, ?_⟩
  · rfl
  · rfl
  · decide

/-! ## Claim C10 — only archive records carry status/updated -/

theorem collectRSS_row_empty_fields (env : Env) (name : String)
    (es : List FeedEntry) (ds de : Int) (tg : List String) (mode : String)
    (fd : Bool) :
    ∀ r ∈ collectRSS env name es ds de tg mode fd,
    r.estado = "" ∧ r.fecha_updated = "" := by
  intro r hr
  rcases List.mem_filterMap.mp hr with ⟨en, _, hpe⟩
  simp only [processEntry] at hpe
  split at hpe
  · simp at hpe
  · split at hpe
    · simp at hpe
    · injection hpe with h
      rw [← h]
      exact ⟨rfl, rfl⟩

theorem pipelineRss_row_empty_fields (env : Env) :
    ∀ (sources : List FeedSource) (ds de : Int) (cpvT : List String)
      (mode : String) (r : Row), r ∈ pipelineRss env sources ds de cpvT mode →
    r.estado = "" ∧ r.fecha_updated = "" := by
  intro sources
  induction sources with
  | nil =>
    intro ds de cpvT mode r hr
    simp [pipelineRss] at hr
  | cons s ss ih =>
    intro ds de cpvT mode r hr
    rw [pipelineRss] at hr
    rcases List.mem_append.mp hr with h | h
    · by_cases hc : (s.name != "" && s.url != "") = true
      · rw [if_pos hc] at h
        exact collectRSS_row_empty_fields env s.name s.entries ds de cpvT mode
          s.follow_detail r h
      · rw [if_neg hc] at h
        simp at h
    · exact ih ds de cpvT mode r h

theorem dedupGo_subset (r : Row) :
    ∀ (l : List Row) (seen : List (String × String × String)),
    r ∈ dedupGo seen l → r ∈ l := by
  intro l
  induction l with
  | nil => intro seen h; rw [dedupGo] at h; exact absurd h (List.not_mem_nil r)
  | cons x xs ih =>
    intro seen h
    rw [dedupGo] at h
    by_cases hx : rowKey x ∈ seen
    · rw [if_pos hx] at h
      exact List.mem_cons_of_mem _ (ih seen h)
    · rw [if_neg hx] at h
      rcases List.mem_cons.mp h with h1 | h1
      · exact h1 ▸ List.mem_cons_self _ _
      · exact List.mem_cons_of_mem _ (ih _ h1)

/-- C10: every record produced by the feed collector has an empty `estado`
and an empty `fecha_updated`, unconditionally; hence in the pipeline's
emitted rows, a row with a non-empty value in either column cannot come
from the RSS part — it is one of the archive-collector rows. -/
theorem C10_feed_rows_blank_status :
    ∀ (env : Env) (name : String) (es : List FeedEntry) (ds de : Int)
      (tg : List String) (mode : String) (fd : Bool)
      (archive : String → List Member) (days : List String)
      (whenArg : String) (cpvArg : List String) (cpvMode cpvScope : String)
      (sources : List FeedSource) (noPlacsp noRss : Bool) (rows : List Row)
      (r : Row),
    (∀ r2 ∈ collectRSS env name es ds de tg mode fd,
      r2.estado = "" ∧ r2.fecha_updated = "") ∧
    (pipeline env archive days whenArg cpvArg cpvMode cpvScope sources ds de
        noPlacsp noRss = Except.ok rows →
      r ∈ rows →
      (r.estado ≠ "" ∨ r.fecha_updated ≠ "") →
      (r ∉ pipelineRss env sources ds de (normalize_cpv_list cpvArg cpvMode)
          cpvMode ∧
       ∃ p, (if noPlacsp then Except.ok []
             else pipelinePlacsp archive days whenArg
               (normalize_cpv_list cpvArg cpvMode) cpvMode cpvScope)
           = Except.ok p ∧ r ∈ p)) := by
  intro env name es ds de tg mode fd archive days whenArg cpvArg cpvMode
    cpvScope sources noPlacsp noRss rows r
  constructor
  · exact collectRSS_row_empty_fields env name es ds de tg mode fd
  · intro hpl hr hne
    have hnotrss : r ∉ pipelineRss env sources ds de
        (normalize_cpv_list cpvArg cpvMode) cpvMode := by
      intro hmem
      rcases pipelineRss_row_empty_fields env sources ds de
        (normalize_cpv_list cpvArg cpvMode) cpvMode r hmem with ⟨h1, h2⟩
      rcases hne with h | h
      · exact h h1
      · exact h h2
    refine ⟨hnotrss, ?_⟩
    simp only [pipeline] at hpl
    split at hpl
    · exact absurd hpl (by simp)
    · rename_i p heq
      injection hpl with hrows
      refine ⟨p, heq, ?_⟩
      have hr2 : r ∈ dedupRows (p ++ (if noRss then [] else
          pipelineRss env sources ds de (normalize_cpv_list cpvArg cpvMode)
            cpvMode)) := by
        rw [hrows]; exact hr
      have hr3 := dedupGo_subset r _ [] hr2
      rcases List.mem_append.mp hr3 with h | h
      · exact h
      · by_cases hnr : noRss
        · rw [if_pos hnr] at h
          exact absurd h (List.not_mem_nil r)
        · rw [if_neg hnr] at h
          exact absurd h hnotrss

/-- The archive oracle of the C10 witness run: the requested day's monthly
ZIP holds the single well-formed member. -/
def archiveW : String → List Member := fun _ => [goodMemberC8]

/-- The emitted PLACSP row of the C10 witness run (non-empty `estado` and
an `updated` timestamp can only come from this collector). -/
def rowC10 : Row :=
  { fuente := "PLACSP"
    expediente := "EXP/2025/1"
    objeto := "Obra de cubierta"
    organo := "Ayuntamiento"
    estado := "PUB"
    importe := "1000"
    cpv := "45261215"
    fecha_published := "2025-09-23T10:00:00"
    fecha_updated := ""
    enlace := "http://example.org/a"
    cpv_source := ""
    importe_source := ""
    detail_status := "" }

/-- Witness for C10: in a concrete PLACSP-only pipeline run, the emitted
row with non-empty `estado` is an archive-collector row and not an RSS row. -/
theorem C10_witness :
    rowC10 ∉ pipelineRss (envBase ordId) [] 0 10
      (normalize_cpv_list ["45261215"] "exact") "exact" ∧
    ∃ p, (if false then Except.ok []
          else pipelinePlacsp archiveW ["2025-09-23"] "published"
            (normalize_cpv_list ["45261215"] "exact") "exact" "folder")
        = Except.ok p ∧ rowC10 ∈ p :=
  (C10_feed_rows_blank_status (envBase ordId) "S" [] 0 10 [] "exact" false
    archiveW ["2025-09-23"] "published" ["45261215"] "exact" "folder" []
    false true [rowC10] rowC10).2 (by rfl) (by decide) (Or.inl (by decide))
